import Mathlib

set_option maxHeartbeats 1000000

/-! Shallow embedding of `rig-core/src/providers/openai/embedding.rs`: the
rate-limit duration header parser `parse_ratelimit_duration` and the batched
embedding request loop `embed_texts`, together with the data they exchange.

Durations are modelled as exact rational numbers of seconds. The source goes
through `f64` and `std::time::Duration`; `f64` rounding is abstracted to exact
rational arithmetic (the numeric buffers the scanner builds contain only ASCII
digits, so every value that actually arises is an integer, exactly
representable in `f64` up to 2^53, and every unit conversion below lands on an
exact multiple of one nanosecond), while the panics of
`Duration::from_secs_f64` and of `Duration` addition on out-of-range values
are modelled explicitly as a distinguished outcome. -/

/-- Value of one ASCII digit character. -/
def charDigit (c : Char) : ℕ := c.toNat - 48

/-- Numeric value of a list of ASCII digit characters read in base 10, as
`f64::from_str` reads an all-digit significand (exactly, for the integral
values concerned here). -/
def digitsVal (cs : List Char) : ℕ :=
  cs.foldl (fun a c => 10 * a + charDigit c) 0

/-- Models `str::parse::<f64>` (Rust `f64::from_str`) on the strings the
scanner of `parse_ratelimit_duration` can hand it. The scanner only ever
pushes ASCII digits or a decimal point into `current_value`, so the relevant
fragment of the `f64` grammar is `Digits | Digits '.' Digits? | '.' Digits`;
signs, exponents, `inf` and `nan` cannot occur. The value is returned as an
exact rational; `f64` rounding is abstracted. -/
def parseF64? (cs : List Char) : Option ℚ :=
  if '.' ∈ cs then
    let intPart := cs.takeWhile (fun c => c ≠ '.')
    let fracPart := (cs.dropWhile (fun c => c ≠ '.')).tail
    if '.' ∈ fracPart then none
    else if intPart.all Char.isDigit = true ∧ fracPart.all Char.isDigit = true ∧
        (intPart ≠ [] ∨ fracPart ≠ []) then
      some ((digitsVal intPart : ℚ) + (digitsVal fracPart : ℚ) / 10 ^ fracPart.length)
    else none
  else if cs ≠ [] ∧ cs.all Char.isDigit = true then some ((digitsVal cs : ℚ))
  else none

/-- Outcome of running the scanning loop of `parse_ratelimit_duration` to
completion. `ok` is normal termination with the accumulated total (in
seconds); `fail` is one of the early `return None` branches taken when a
numeric buffer fails to parse; `unreachableHit` is the `_ => unreachable!()`
arm of the unit-conversion match; `panicked` is a panic raised by
`Duration::from_secs_f64` or by `Duration` addition on an out-of-range
value. -/
inductive ParseOutcome where
  | ok (total : ℚ)
  | fail
  | unreachableHit
  | panicked
deriving DecidableEq

/-- One step of the scanner either continues with a new buffer and running
total, or halts the whole parse with a final outcome. -/
inductive StepRes where
  | cont (buf : List Char) (total : ℚ)
  | halt (outcome : ParseOutcome)
deriving DecidableEq

/-- Largest value representable by `std::time::Duration`:
`u64::MAX` seconds plus `10^9 - 1` nanoseconds. -/
def durationMax : ℚ := (2 ^ 64 - 1) + (10 ^ 9 - 1) / 10 ^ 9

/-- Models `Duration::from_secs_f64`: rounds the given number of seconds to
the nearest nanosecond, and panics (`none`) when the value is negative or
reaches 2^64 seconds. The argument is the exact rational value of the `f64`;
`f64` rounding is abstracted (it cannot move a value across the 2^64-second
panic threshold for the magnitudes at which the branches below are taken). -/
def from_secs_f64 (secs : ℚ) : Option ℚ :=
  if 0 ≤ secs ∧ secs < 2 ^ 64 then some (((round (secs * 10 ^ 9) : ℤ) : ℚ) / 10 ^ 9)
  else none

/-- Models `Duration` addition (`total_duration += d`), which panics (`none`)
when the sum overflows `Duration`. -/
def durAdd (a b : ℚ) : Option ℚ :=
  if a + b ≤ durationMax then some (a + b) else none

/-- Convert a parsed value (already multiplied by its unit's factor, in
seconds) into a duration and add it to the running total, exactly as each arm
of the source's unit match does with `total_duration +=
Duration::from_secs_f64(..)`; on success the numeric buffer is cleared. -/
def addSecs (total secs : ℚ) : StepRes :=
  match from_secs_f64 secs with
  | none => .halt .panicked
  | some d =>
    match durAdd total d with
    | none => .halt .panicked
    | some t => .cont [] t

/-- The single-character-unit match of the source: `'h'`, `'m'` and `'s'`
name their unit; any other alphabetic character is an unknown unit (`none`),
which makes the scanner clear the pending buffer and continue. -/
def singleUnit (c : Char) : Option String :=
  if c == 'h' then some ("h")
  else if c == 'm' then some ("m")
  else if c == 's' then some ("s")
  else none

/-- Resolve one unit token against the pending numeric buffer, mirroring the
source: parse the buffer as `f64`; on success convert by the unit's
multiplier (hours x3600, minutes x60, seconds x1, milliseconds /1000 — any
other unit string would hit the `unreachable!()` arm) and add to the running
total, clearing the buffer; on parse failure with a non-empty buffer, abort
the whole parse (`return None`); with an empty buffer, just continue. -/
def applyUnit (unit : String) (buf : List Char) (total : ℚ) : StepRes :=
  match parseF64? buf with
  | some val =>
    match unit with
    | "h" => addSecs total (val * 3600)
    | "m" => addSecs total (val * 60)
    | "s" => addSecs total val
    | "ms" => addSecs total (val / 1000)
    | _ => .halt .unreachableHit
  | none => if buf.isEmpty then .cont buf total else .halt .fail

/-- Models Rust `char::is_alphabetic`, restricted to ASCII letters; the full
Unicode Alphabetic table is abstracted (every input any claim concerns is
ASCII). -/
def rustIsAlphabetic (c : Char) : Bool := c.isAlpha

/-- The scanning loop of `parse_ratelimit_duration` over the remaining
characters, the pending numeric buffer `current_value`, and the running
total. A digit — or a decimal point when the buffer already contains one,
which is the condition exactly as written in the source — is pushed onto the
buffer; an alphabetic character resolves a unit, with the mandatory
lookahead consuming `ms` as a two-character unit when an `m` is immediately
followed by an `s`, and an unknown unit letter clearing the buffer; any
other character (whitespace or not — the source only logs in that branch) is
skipped. At end of string a non-empty trailing buffer is treated as seconds,
which is exactly `applyUnit` with unit `s`. -/
def scanLoop : List Char → List Char → ℚ → ParseOutcome
  | [], buf, total =>
    match applyUnit ("s") buf total with
    | .cont _ t => .ok t
    | .halt o => o
  | [c], buf, total =>
    if c.isDigit = true ∨ (c = '.' ∧ '.' ∈ buf) then
      scanLoop [] (buf ++ [c]) total
    else if rustIsAlphabetic c then
      match singleUnit c with
      | some u =>
        match applyUnit u buf total with
        | .cont b t => scanLoop [] b t
        | .halt o => o
      | none => scanLoop [] [] total
    else
      scanLoop [] buf total
  | c :: next :: rest2, buf, total =>
    if c.isDigit = true ∨ (c = '.' ∧ '.' ∈ buf) then
      scanLoop (next :: rest2) (buf ++ [c]) total
    else if rustIsAlphabetic c then
      if c == 'm' && next == 's' then
        match applyUnit ("ms") buf total with
        | .cont b t => scanLoop rest2 b t
        | .halt o => o
      else
        match singleUnit c with
        | some u =>
          match applyUnit u buf total with
          | .cont b t => scanLoop (next :: rest2) b t
          | .halt o => o
        | none => scanLoop (next :: rest2) [] total
    else
      scanLoop (next :: rest2) buf total

/-- Models `HeaderValue::to_str`, which succeeds only when every byte of the
header value is visible ASCII or a tab; header values are modelled as
strings, so the check is per character. -/
def headerToStr? (hv : String) : Option String :=
  if hv.data.all (fun c => decide (32 ≤ c.toNat ∧ c.toNat < 127) || c == '\t') = true
  then some hv else none

/-- The parser `parse_ratelimit_duration` of the source. The outer `Option`
distinguishes a panic (`none` — the function never returns) from a normal
return (`some r` with `r` the returned `Option<Duration>`, the duration in
seconds): a failed `to_str` or a failed numeric-buffer parse returns
`None`, and a running total that is still exactly zero after the scan is
returned as `None` (undetermined) rather than a zero duration. -/
def parse_ratelimit_duration (hv : String) : Option (Option ℚ) :=
  match headerToStr? hv with
  | none => some none
  | some s =>
    match scanLoop s.data [] 0 with
    | .ok t => some (if t = 0 then none else some t)
    | .fail => some none
    | .unreachableHit => none
    | .panicked => none

/-! Data exchanged by the request loop `embed_texts`. Types declared outside
the provided source file (`crate::embeddings`, the `openai` module root) are
modelled from the spec where noted. -/

/-- One record of a success response body, `EmbeddingData` of the source:
an object tag, the vector, and the record's declared index. Vector
components are `f64` in the source, modelled as exact rationals. -/
structure EmbeddingData where
  object : String
  embedding : List ℚ
  index : ℕ
deriving DecidableEq

/-- Success response body, `EmbeddingResponse` of the source. The `Usage`
type lives outside the provided source and is only rendered into a log line,
so it is carried as its rendered string. -/
structure EmbeddingResponse where
  object : String
  data : List EmbeddingData
  model : String
  usage : String
deriving DecidableEq

/-- Modelled from the spec: `ApiErrorResponse` (declared in the `openai`
module root, outside the provided source), the provider error envelope
carrying a message. -/
structure ApiErrorResponse where
  message : String
deriving DecidableEq

/-- Modelled from the spec: `ApiResponse<EmbeddingResponse>` (declared in the
`openai` module root, outside the provided source), the tagged
success/error envelope a 200 body decodes to. -/
inductive ApiResponseE where
  | Ok (resp : EmbeddingResponse)
  | Err (err : ApiErrorResponse)
deriving DecidableEq

/-- Modelled from the spec: `embeddings::Embedding` (declared in
`crate::embeddings`, outside the provided source), one returned entry pairing
an owned copy of the input document with its vector. -/
structure Embedding where
  document : String
  vec : List ℚ
deriving DecidableEq

/-- Modelled from the spec: the variants of `crate::embeddings::EmbeddingError`
(declared outside the provided source) that `embed_texts` constructs: a
provider-reported failure and a response-shape violation. -/
inductive EmbeddingError where
  | ProviderError (message : String)
  | ResponseError (message : String)
deriving DecidableEq

/-- The two rate-limit headers of a 429 response that the loop consults, by
name: `requests` holds the value of `x-ratelimit-reset-requests` when that
header is present, `tokens` the value of `x-ratelimit-reset-tokens`. -/
structure Headers where
  requests : Option String
  tokens : Option String
deriving DecidableEq

/-- One HTTP response, classified by status as the loop's match does:
a 200 whose body decoded to the envelope, a 429 with its rate-limit headers
and body text, or any other status with its body text. Transport failures
and body-decode failures propagate through `?` before this match and are not
modelled (no claim concerns them). -/
inductive HttpResponse where
  | ok (body : ApiResponseE)
  | tooManyRequests (headers : Headers) (bodyText : String)
  | otherStatus (status : ℕ) (bodyText : String)
deriving DecidableEq

/-- The request body built once before the loop from the model name and the
collected input documents, and sent unchanged on every attempt. -/
structure RequestBody where
  model : String
  input : List String
deriving DecidableEq

/-- Observable actions of one run of the loop: issuing the HTTP POST with a
body, and sleeping for a duration (in seconds) before the next attempt. -/
inductive Event where
  | send (body : RequestBody)
  | sleep (d : ℚ)
deriving DecidableEq

/-- Whether an event is the issuing of a request. -/
def Event.isSend : Event → Bool
  | .send _ => true
  | .sleep _ => false

/-- Final outcome of a run of the loop against a finite response script:
a returned embedding list, a returned error, the script running out (the
loop would issue yet another request), or a panic inside the parser. -/
inductive RunResult where
  | success (out : List Embedding)
  | failure (e : EmbeddingError)
  | scriptExhausted
  | panicked
deriving DecidableEq

/-- Display of a `reqwest::StatusCode` abstracted to its numeric code; the
canonical reason-phrase suffix lives in the external http crate and no claim
depends on the rendered text of non-429 failures. -/
def statusDisplay (status : ℕ) : String := toString status

/-- The retry-hint extraction of the 429 arm:
`headers.get("x-ratelimit-reset-requests").or_else(|| headers.get("x-ratelimit-reset-tokens")).and_then(parse_ratelimit_duration)`.
The fallback to the tokens header happens only when the requests header is
absent. The outer `Option` again distinguishes a parser panic (`none`) from
a normal answer (`some r`, with `r = none` meaning no duration was
obtained). -/
def retry_after (h : Headers) : Option (Option ℚ) :=
  match h.requests with
  | some hv => parse_ratelimit_duration hv
  | none =>
    match h.tokens with
    | some hv => parse_ratelimit_duration hv
    | none => some none

/-- The body of `embed_texts`' `loop`, run against a finite script of
responses, one per issued request, recording the observable events. A 200
envelope success checks the record count against the input count, then zips
records with the original documents positionally; a 200 envelope error and
any other status return a `ProviderError`; a 429 consults `retry_after` and
either sleeps the obtained duration and loops, or returns a `ProviderError`
carrying the response body text. -/
def embedLoop (body : RequestBody) : List HttpResponse → List Event × RunResult
  | [] => ([], .scriptExhausted)
  | resp :: rest =>
    match resp with
    | .ok (.Ok rd) =>
      if rd.data.length ≠ body.input.length then
        ([.send body],
         .failure (.ResponseError ("Response data length does not match input length")))
      else
        ([.send body],
         .success (List.zipWith (fun ed doc => Embedding.mk doc ed.embedding)
            rd.data body.input))
    | .ok (.Err e) => ([.send body], .failure (.ProviderError e.message))
    | .tooManyRequests headers bodyText =>
      match retry_after headers with
      | some (some d) =>
        let r := embedLoop body rest
        (.send body :: .sleep d :: r.1, r.2)
      | some none =>
        ([.send body],
         .failure (.ProviderError
           ("Rate limit hit, but no valid retry duration found in headers. Response: "
             ++ bodyText)))
      | none => ([.send body], .panicked)
    | .otherStatus status bodyText =>
      ([.send body],
       .failure (.ProviderError
         ("Request failed with status " ++ statusDisplay status ++ ": " ++ bodyText)))

/-- The `embed_texts` operation: collect the documents, build the request
body once, and run the retry loop. -/
def embed_texts (model : String) (documents : List String)
    (script : List HttpResponse) : List Event × RunResult :=
  embedLoop (RequestBody.mk model documents) script

/-- Expected event trace of a run that retries once per parsed duration in
the given list and then succeeds: each re-issue of the identical body is
preceded by exactly one sleep of the parsed duration. -/
def retryTrace (body : RequestBody) : List ℚ → List Event
  | [] => [.send body]
  | d :: ds => .send body :: .sleep d :: retryTrace body ds

/-! Helper lemmas: evaluation of digit characters. -/

@[simp] theorem charDigit_0 : charDigit ('0') = 0 := rfl

@[simp] theorem charDigit_1 : charDigit ('1') = 1 := rfl

@[simp] theorem charDigit_2 : charDigit ('2') = 2 := rfl

@[simp] theorem charDigit_3 : charDigit ('3') = 3 := rfl

@[simp] theorem charDigit_5 : charDigit ('5') = 5 := rfl

@[simp] theorem charDigit_6 : charDigit ('6') = 6 := rfl

@[simp] theorem charDigit_9 : charDigit ('9') = 9 := rfl

/-- C1: the claim expects every valid single-token input with a real (possibly
fractional) magnitude to parse as n times the unit multiplier, e.g. "0.5s" as
half a second. The code drops the decimal point — the push condition
`c == '.' && current_value.contains('.')` requires an already-present point,
contradicting its own comment — so the buffer for "0.5s" becomes the digit
string "05" and the function returns five whole seconds. -/
theorem C1_fractional_point_dropped :
    parse_ratelimit_duration ("0.5s") = some (some 5) ∧ ((5 : ℚ) ≠ 1 / 2) := by
  constructor
  · norm_num +decide [parse_ratelimit_duration, headerToStr?, scanLoop, applyUnit, addSecs,
      parseF64?, singleUnit, rustIsAlphabetic, from_secs_f64, durAdd, durationMax,
      digitsVal, round_ofNat,
      show ("0.5s").data = ['0', '.', '5', 's'] from rfl]
  · norm_num

/-- C4: the parser resolves units with the mandatory m-then-s lookahead and
sums all tokens: "10ms" is ten milliseconds, "1m" sixty seconds, "6m10s" 370
seconds, "500ms" half a second, "1h2m3s" 3723 seconds; the empty string and
"xyz" leave the running total at zero, which is returned as undetermined. -/
theorem C4_parser_edge_cases :
    parse_ratelimit_duration ("10ms") = some (some (1 / 100)) ∧
    parse_ratelimit_duration ("1m") = some (some 60) ∧
    parse_ratelimit_duration ("6m10s") = some (some 370) ∧
    parse_ratelimit_duration ("500ms") = some (some (1 / 2)) ∧
    parse_ratelimit_duration ("1h2m3s") = some (some 3723) ∧
    parse_ratelimit_duration ("") = some none ∧
    parse_ratelimit_duration ("xyz") = some none := by
  refine ⟨?_, ?_, ?_, ?_, ?_, ?_, ?_⟩ <;>
    norm_num +decide [parse_ratelimit_duration, headerToStr?, scanLoop, applyUnit, addSecs,
      parseF64?, singleUnit, rustIsAlphabetic, from_secs_f64, durAdd, durationMax,
      digitsVal, round_ofNat,
      show ("10ms").data = ['1', '0', 'm', 's'] from rfl,
      show ("1m").data = ['1', 'm'] from rfl,
      show ("6m10s").data = ['6', 'm', '1', '0', 's'] from rfl,
      show ("500ms").data = ['5', '0', '0', 'm', 's'] from rfl,
      show ("1h2m3s").data = ['1', 'h', '2', 'm', '3', 's'] from rfl,
      show ("").data = ([] : List Char) from rfl,
      show ("xyz").data = ['x', 'y', 'z'] from rfl]

/-- C9: an unrecognized unit letter discards only the pending numeric buffer:
in "5q10s" the 'q' throws away the pending "5" but the trailing "10s" still
contributes ten seconds, and in "2m5q10s" the leading "2m" parsed before the
malformed token is kept as well. -/
theorem C9_unknown_unit_discards_only_buffer :
    parse_ratelimit_duration ("5q10s") = some (some 10) ∧
    parse_ratelimit_duration ("2m5q10s") = some (some 130) := by
  constructor <;>
    norm_num +decide [parse_ratelimit_duration, headerToStr?, scanLoop, applyUnit, addSecs,
      parseF64?, singleUnit, rustIsAlphabetic, from_secs_f64, durAdd, durationMax,
      digitsVal, round_ofNat,
      show ("5q10s").data = ['5', 'q', '1', '0', 's'] from rfl,
      show ("2m5q10s").data = ['2', 'm', '5', 'q', '1', '0', 's'] from rfl]

set_option maxRecDepth 8000 in
set_option maxHeartbeats 2000000 in
/-- C10 counterexample: the parser is not panic-free. For the header value
"9000000000000000h" the numeric buffer parses to 9e15 (exactly representable
in `f64`), the hour conversion asks `Duration::from_secs_f64` for 3.24e19
seconds, which exceeds `Duration`'s 2^64-second bound, and the conversion
panics instead of returning `None`. -/
theorem C10_counterexample_overflow_panic :
    scanLoop ("9000000000000000h").data [] 0 = ParseOutcome.panicked ∧
    parse_ratelimit_duration ("9000000000000000h") = none := by
  have hd : ("9000000000000000h").data =
      ['9', '0', '0', '0', '0', '0', '0', '0', '0', '0', '0', '0', '0', '0', '0', '0', 'h'] := rfl
  have h1 : scanLoop ("9000000000000000h").data [] 0 = ParseOutcome.panicked := by
    norm_num +decide [scanLoop, applyUnit, addSecs,
      parseF64?, singleUnit, rustIsAlphabetic, from_secs_f64, durAdd, durationMax,
      digitsVal, round_ofNat, hd]
  refine ⟨h1, ?_⟩
  rw [parse_ratelimit_duration]
  norm_num +decide [headerToStr?, hd, h1]

theorem all_digits_not_mem_dot {buf : List Char} (h : buf.all Char.isDigit = true) :
    '.' ∉ buf := by
  intro hm
  have := List.all_eq_true.mp h _ hm
  simp at this

theorem parseF64?_all_digits {buf : List Char} (hne : buf ≠ [])
    (h : buf.all Char.isDigit = true) :
    parseF64? buf = some ((digitsVal buf : ℚ)) := by
  have hd := all_digits_not_mem_dot h
  simp [parseF64?, hd, hne, h]

theorem addSecs_ok (total secs : ℚ) :
    (∃ t, addSecs total secs = .cont [] t) ∨ addSecs total secs = .halt .panicked := by
  cases hf : from_secs_f64 secs with
  | none => right; simp [addSecs, hf]
  | some d =>
    cases ha : durAdd total d with
    | none => right; simp [addSecs, hf, ha]
    | some t => left; exact ⟨t, by simp [addSecs, hf, ha]⟩

theorem singleUnit_mem {c : Char} {u : String} (h : singleUnit c = some u) :
    u = "h" ∨ u = "m" ∨ u = "s" ∨ u = "ms" := by
  unfold singleUnit at h
  split_ifs at h <;> simp_all

theorem applyUnit_ok (u : String) (hu : u = "h" ∨ u = "m" ∨ u = "s" ∨ u = "ms")
    (buf : List Char) (total : ℚ) (hb : buf.all Char.isDigit = true) :
    (∃ b t, applyUnit u buf total = .cont b t ∧ b.all Char.isDigit = true) ∨
    applyUnit u buf total = .halt .panicked := by
  by_cases hne : buf = []
  · subst hne
    left
    exact ⟨[], total, by simp [applyUnit, parseF64?], rfl⟩
  · have hp := parseF64?_all_digits hne hb
    have key : ∀ secs, ((∃ b t, addSecs total secs = StepRes.cont b t ∧
        b.all Char.isDigit = true) ∨ addSecs total secs = .halt .panicked) := by
      intro secs
      rcases addSecs_ok total secs with ⟨t, ht⟩ | ht
      · left; exact ⟨[], t, ht, rfl⟩
      · right; exact ht
    rcases hu with h | h | h | h <;> subst h <;> simp only [applyUnit, hp] <;> apply key

theorem scanLoop_ok_or_panic (l buf : List Char) (total : ℚ)
    (hb : buf.all Char.isDigit = true) :
    (∃ t, scanLoop l buf total = ParseOutcome.ok t) ∨
    scanLoop l buf total = ParseOutcome.panicked := by
  induction l, buf, total using scanLoop.induct with
  | case1 buf total b t happ =>
    left; exact ⟨t, by simp [scanLoop, happ]⟩
  | case2 buf total o happ =>
    rcases applyUnit_ok ("s") (by tauto) buf total hb with ⟨b, t, hc, _⟩ | hp
    · rw [happ] at hc; simp at hc
    · rw [happ] at hp
      simp only [StepRes.halt.injEq] at hp
      subst hp
      right; simp [scanLoop, happ]
  | case3 c buf total hcond ih =>
    have hc : c.isDigit = true := by
      rcases hcond with h | ⟨h1, h2⟩
      · exact h
      · exact absurd h2 (all_digits_not_mem_dot hb)
    have hb' : (buf ++ [c]).all Char.isDigit = true := by
      simp [List.all_append, hb, hc]
    have hstep : scanLoop [c] buf total = scanLoop [] (buf ++ [c]) total := by
      simp only [scanLoop, if_pos hcond]
    rw [hstep]
    exact ih hb'
  | case4 c buf total hcond halpha u hsu b t happ ih =>
    have hb' : b.all Char.isDigit = true := by
      rcases applyUnit_ok u (singleUnit_mem hsu) buf total hb with ⟨b', t', hc, hd⟩ | hp
      · rw [happ] at hc
        simp only [StepRes.cont.injEq] at hc
        rw [hc.1]; exact hd
      · rw [happ] at hp; simp at hp
    have hstep : scanLoop [c] buf total = scanLoop [] b t := by
      simp [scanLoop, hcond, halpha, hsu, happ]
    rw [hstep]
    exact ih hb'
  | case5 c buf total hcond halpha u hsu o happ =>
    rcases applyUnit_ok u (singleUnit_mem hsu) buf total hb with ⟨b', t', hc, _⟩ | hp
    · rw [happ] at hc; simp at hc
    · rw [happ] at hp
      simp only [StepRes.halt.injEq] at hp
      subst hp
      right; simp [scanLoop, hcond, halpha, hsu, happ]
  | case6 c buf total hcond halpha hsu ih =>
    have hstep : scanLoop [c] buf total = scanLoop [] [] total := by
      simp [scanLoop, hcond, halpha, hsu]
    rw [hstep]
    exact ih rfl
  | case7 c buf total hcond halpha ih =>
    have hstep : scanLoop [c] buf total = scanLoop [] buf total := by
      simp [scanLoop, hcond, halpha]
    rw [hstep]
    exact ih hb
  | case8 c next rest2 buf total hcond ih =>
    have hc : c.isDigit = true := by
      rcases hcond with h | ⟨h1, h2⟩
      · exact h
      · exact absurd h2 (all_digits_not_mem_dot hb)
    have hb' : (buf ++ [c]).all Char.isDigit = true := by
      simp [List.all_append, hb, hc]
    have hstep : scanLoop (c :: next :: rest2) buf total =
        scanLoop (next :: rest2) (buf ++ [c]) total := by
      simp only [scanLoop, if_pos hcond]
    rw [hstep]
    exact ih hb'
  | case9 c next rest2 buf total hcond halpha hms b t happ ih =>
    have hb' : b.all Char.isDigit = true := by
      rcases applyUnit_ok ("ms") (by tauto) buf total hb with ⟨b', t', hc, hd⟩ | hp
      · rw [happ] at hc
        simp only [StepRes.cont.injEq] at hc
        rw [hc.1]; exact hd
      · rw [happ] at hp; simp at hp
    have hstep : scanLoop (c :: next :: rest2) buf total = scanLoop rest2 b t := by
      simp [scanLoop, hcond, halpha, hms, happ]
    rw [hstep]
    exact ih hb'
  | case10 c next rest2 buf total hcond halpha hms o happ =>
    rcases applyUnit_ok ("ms") (by tauto) buf total hb with ⟨b', t', hc, _⟩ | hp
    · rw [happ] at hc; simp at hc
    · rw [happ] at hp
      simp only [StepRes.halt.injEq] at hp
      subst hp
      right; simp [scanLoop, hcond, halpha, hms, happ]
  | case11 c next rest2 buf total hcond halpha hms u hsu b t happ ih =>
    have hb' : b.all Char.isDigit = true := by
      rcases applyUnit_ok u (singleUnit_mem hsu) buf total hb with ⟨b', t', hc, hd⟩ | hp
      · rw [happ] at hc
        simp only [StepRes.cont.injEq] at hc
        rw [hc.1]; exact hd
      · rw [happ] at hp; simp at hp
    have hstep : scanLoop (c :: next :: rest2) buf total = scanLoop (next :: rest2) b t := by
      simp [scanLoop, hcond, halpha, hms, hsu, happ]
    rw [hstep]
    exact ih hb'
  | case12 c next rest2 buf total hcond halpha hms u hsu o happ =>
    rcases applyUnit_ok u (singleUnit_mem hsu) buf total hb with ⟨b', t', hc, _⟩ | hp
    · rw [happ] at hc; simp at hc
    · rw [happ] at hp
      simp only [StepRes.halt.injEq] at hp
      subst hp
      right; simp [scanLoop, hcond, halpha, hms, hsu, happ]
  | case13 c next rest2 buf total hcond halpha hms hsu ih =>
    have hstep : scanLoop (c :: next :: rest2) buf total =
        scanLoop (next :: rest2) [] total := by
      simp [scanLoop, hcond, halpha, hms, hsu]
    rw [hstep]
    exact ih rfl
  | case14 c next rest2 buf total hcond halpha ih =>
    have hstep : scanLoop (c :: next :: rest2) buf total =
        scanLoop (next :: rest2) buf total := by
      simp [scanLoop, hcond, halpha]
    rw [hstep]
    exact ih hb

/-- C10 amended: for every header value the scanner finishes without ever
reaching the `unreachable!()` arm or the malformed-number early returns — the
decimal-point push condition is never satisfiable on a digit buffer, so the
buffer holds only ASCII digits and every `f64` parse of a non-empty buffer
succeeds — and it either returns normally (`Some` or `None`) or panics inside
`Duration::from_secs_f64` / `Duration` addition when a token's converted
value overflows `Duration` (the sole deviation from the claimed panic
freedom, witnessed by the counterexample). -/
theorem C10_amended_no_internal_failure (hv : String) :
    ((∃ t, scanLoop hv.data [] 0 = ParseOutcome.ok t) ∨
      scanLoop hv.data [] 0 = ParseOutcome.panicked) ∧
    scanLoop hv.data [] 0 ≠ ParseOutcome.fail ∧
    scanLoop hv.data [] 0 ≠ ParseOutcome.unreachableHit := by
  have h := scanLoop_ok_or_panic hv.data [] 0 rfl
  refine ⟨h, ?_, ?_⟩ <;> rcases h with ⟨t, ht⟩ | ht <;> simp [ht]

/-! Helper lemmas about the retry loop. -/

theorem retryTrace_eq_flatMap (body : RequestBody) (ds : List ℚ) :
    retryTrace body ds =
      ds.flatMap (fun d => [Event.send body, Event.sleep d]) ++ [Event.send body] := by
  induction ds with
  | nil => simp [retryTrace]
  | cons d ds ih => simp [retryTrace, ih]

theorem retryTrace_countP_send (body : RequestBody) (ds : List ℚ) :
    (retryTrace body ds).countP Event.isSend = ds.length + 1 := by
  induction ds with
  | nil => simp [retryTrace, List.countP_cons, Event.isSend]
  | cons d ds ih => simp [retryTrace, List.countP_cons, Event.isSend, ih]

theorem embedLoop_retry_prefix (body : RequestBody) {hs : List (Headers × String)}
    {ds : List ℚ}
    (h : List.Forall₂ (fun (p : Headers × String) (d : ℚ) =>
      retry_after p.1 = some (some d)) hs ds)
    (rest : List HttpResponse) :
    embedLoop body (hs.map (fun p => HttpResponse.tooManyRequests p.1 p.2) ++ rest) =
      (ds.flatMap (fun d => [Event.send body, Event.sleep d]) ++ (embedLoop body rest).1,
       (embedLoop body rest).2) := by
  induction h with
  | nil => simp
  | cons h1 h2 ih =>
    simp only [List.map_cons, List.cons_append, List.flatMap_cons]
    rw [embedLoop]
    simp only [h1, ih, List.cons_append, List.append_assoc]
    rfl

/-- C2 counterexample: a present-but-unparseable x-ratelimit-reset-requests
header does not fall back to the tokens header. With requests = "xyz"
(unparseable) and tokens = "10s" (parseable, ten seconds), `or_else` sees the
requests header present, `and_then(parse)` fails on it, no duration is
obtained, and the loop terminates with the rate-limit failure instead of
retrying — contradicting the claim that a retry duration is obtained from
the tokens header. -/
theorem C2_counterexample_unparseable_requests_header :
    parse_ratelimit_duration ("10s") = some (some 10) ∧
    retry_after (Headers.mk (some ("xyz")) (some ("10s"))) = some none ∧
    embed_texts ("m") [("a")]
        [.tooManyRequests (Headers.mk (some ("xyz")) (some ("10s"))) ("body")] =
      ([.send (RequestBody.mk ("m") [("a")])],
       .failure (.ProviderError
         ("Rate limit hit, but no valid retry duration found in headers. Response: "
           ++ "body"))) := by
  have hxyz : parse_ratelimit_duration ("xyz") = some none := by
    norm_num +decide [parse_ratelimit_duration, headerToStr?, scanLoop, applyUnit, addSecs,
      parseF64?, singleUnit, rustIsAlphabetic, from_secs_f64, durAdd, durationMax,
      digitsVal, round_ofNat, show ("xyz").data = ['x', 'y', 'z'] from rfl]
  have h10 : parse_ratelimit_duration ("10s") = some (some 10) := by
    norm_num +decide [parse_ratelimit_duration, headerToStr?, scanLoop, applyUnit, addSecs,
      parseF64?, singleUnit, rustIsAlphabetic, from_secs_f64, durAdd, durationMax,
      digitsVal, round_ofNat, show ("10s").data = ['1', '0', 's'] from rfl]
  have hra : retry_after (Headers.mk (some ("xyz")) (some ("10s"))) = some none := by
    simp [retry_after, hxyz]
  exact ⟨h10, hra, by simp [embed_texts, embedLoop, hra]⟩

/-- C2 amended: the requester falls back to the x-ratelimit-reset-tokens
header only when the x-ratelimit-reset-requests header is absent. When it is
present but unparseable, no duration is obtained even if the tokens header
parses; when it is absent and the tokens header parses to duration d, the
loop sleeps d and re-issues the request. -/
theorem C2_amended_fallback_only_if_absent (tok : String) (d : ℚ) (model : String)
    (docs : List String) (bodyText : String) (rest : List HttpResponse)
    (htok : parse_ratelimit_duration tok = some (some d)) :
    (∀ req, parse_ratelimit_duration req = some none →
      retry_after (Headers.mk (some req) (some tok)) = some none) ∧
    retry_after (Headers.mk none (some tok)) = some (some d) ∧
    embed_texts model docs
        (.tooManyRequests (Headers.mk none (some tok)) bodyText :: rest) =
      (.send (RequestBody.mk model docs) :: .sleep d ::
        (embedLoop (RequestBody.mk model docs) rest).1,
       (embedLoop (RequestBody.mk model docs) rest).2) := by
  refine ⟨?_, ?_, ?_⟩
  · intro req hreq
    simp [retry_after, hreq]
  · simp [retry_after, htok]
  · simp [embed_texts, embedLoop, retry_after, htok]

/-- C2 witness: the amended fallback at the concrete header value "10s". -/
theorem C2_amended_witness :
    retry_after (Headers.mk none (some ("10s"))) = some (some 10) ∧
    embed_texts ("m") [("a")]
        [.tooManyRequests (Headers.mk none (some ("10s"))) ("b")] =
      ([.send (RequestBody.mk ("m") [("a")]), .sleep 10], .scriptExhausted) := by
  have h10 : parse_ratelimit_duration ("10s") = some (some 10) := by
    norm_num +decide [parse_ratelimit_duration, headerToStr?, scanLoop, applyUnit, addSecs,
      parseF64?, singleUnit, rustIsAlphabetic, from_secs_f64, durAdd, durationMax,
      digitsVal, round_ofNat, show ("10s").data = ['1', '0', 's'] from rfl]
  have h := C2_amended_fallback_only_if_absent ("10s") 10 ("m") [("a")] ("b") [] h10
  refine ⟨h.2.1, ?_⟩
  rw [h.2.2]
  simp [embedLoop]

/-- C3 counterexample: the code pairs records positionally and ignores the
declared index field. With two records arriving out of order — position 0
declares index 1 and vector [1], position 1 declares index 0 and vector
[2] — document "a" (input 0) receives vector [1], the vector of the record
at position 0, although the record whose declared index is 0 carries [2].
The claim that the vector paired with input i comes from the record whose
index field is i is therefore false. -/
theorem C3_counterexample_index_ignored :
    embed_texts ("m") [("a"), ("b")]
        [.ok (.Ok (EmbeddingResponse.mk ("list")
          [EmbeddingData.mk ("embedding") [1] 1, EmbeddingData.mk ("embedding") [2] 0]
          ("m") ("u")))] =
      ([.send (RequestBody.mk ("m") [("a"), ("b")])],
       .success [Embedding.mk ("a") [1], Embedding.mk ("b") [2]]) ∧
    (EmbeddingData.mk ("embedding") [2] 0).index = 0 ∧
    (EmbeddingData.mk ("embedding") [2] 0).embedding ≠ [(1 : ℚ)] := by
  refine ⟨by simp [embed_texts, embedLoop], rfl, ?_⟩
  intro h
  simp only [List.cons.injEq, and_true] at h
  norm_num at h

/-- C3 amended: on a 200 success with matching counts, the entry at output
position i pairs the input document at position i with the vector of the
record at position i, regardless of the records' declared index fields;
correspondence to the original inputs therefore holds exactly when records
arrive in submission order. -/
theorem C3_amended_positional_pairing (model : String) (docs : List String)
    (rd : EmbeddingResponse) (rest : List HttpResponse)
    (hlen : rd.data.length = docs.length) :
    ∃ out, embed_texts model docs (.ok (.Ok rd) :: rest) =
        ([.send (RequestBody.mk model docs)], .success out) ∧
      out.length = docs.length ∧
      ∀ i, i < docs.length → ∃ ed doc, rd.data[i]? = some ed ∧ docs[i]? = some doc ∧
        out[i]? = some (Embedding.mk doc ed.embedding) := by
  refine ⟨List.zipWith (fun ed doc => Embedding.mk doc ed.embedding) rd.data docs,
    ?_, ?_, ?_⟩
  · simp [embed_texts, embedLoop, hlen]
  · simp [List.length_zipWith, hlen]
  · intro i hi
    have hid : i < rd.data.length := by omega
    refine ⟨rd.data[i], docs[i], List.getElem?_eq_getElem hid,
      List.getElem?_eq_getElem hi, ?_⟩
    rw [List.getElem?_zipWith']
    rw [List.getElem?_eq_getElem hid, List.getElem?_eq_getElem hi]
    simp

/-- C3 witness: positional pairing at a concrete response whose single record
declares the (ignored) index 5. -/
theorem C3_amended_witness :
    ∃ out, embed_texts ("m") [("a")]
        [.ok (.Ok (EmbeddingResponse.mk ("list") [EmbeddingData.mk ("embedding") [7] 5]
          ("m") ("u")))] =
        ([.send (RequestBody.mk ("m") [("a")])], .success out) ∧
      out.length = [("a")].length ∧
      ∀ i, i < [("a")].length →
        ∃ ed doc, [EmbeddingData.mk ("embedding") [7] 5][i]? = some ed ∧
          [("a")][i]? = some doc ∧ out[i]? = some (Embedding.mk doc ed.embedding) :=
  C3_amended_positional_pairing ("m") [("a")]
    (EmbeddingResponse.mk ("list") [EmbeddingData.mk ("embedding") [7] 5] ("m") ("u"))
    [] rfl

/-- C5: for every sequence of N consecutive 429 responses whose
x-ratelimit-reset-requests header parses to a duration, followed by a
success response with matching count, the run's event trace is exactly
send, sleep d1, send, sleep d2, ..., send — each re-issue of the identical
request body is preceded by exactly one suspension for the parsed duration —
the run returns success, and the trace contains exactly N + 1 sends. -/
theorem C5_retry_until_success (model : String) (docs : List String)
    (hs : List (Headers × String)) (ds : List ℚ) (rd : EmbeddingResponse)
    (hpar : List.Forall₂ (fun (p : Headers × String) (d : ℚ) =>
      ∃ hv, p.1.requests = some hv ∧ parse_ratelimit_duration hv = some (some d)) hs ds)
    (hlen : rd.data.length = docs.length) :
    embed_texts model docs
        (hs.map (fun p => HttpResponse.tooManyRequests p.1 p.2) ++ [.ok (.Ok rd)]) =
      (retryTrace (RequestBody.mk model docs) ds,
       .success (List.zipWith (fun ed doc => Embedding.mk doc ed.embedding) rd.data docs)) ∧
    (retryTrace (RequestBody.mk model docs) ds).countP Event.isSend = hs.length + 1 := by
  have hra : List.Forall₂ (fun (p : Headers × String) (d : ℚ) =>
      retry_after p.1 = some (some d)) hs ds := by
    refine hpar.imp ?_
    rintro p d ⟨hv, hreq, hparse⟩
    simp [retry_after, hreq, hparse]
  constructor
  · rw [embed_texts, embedLoop_retry_prefix (RequestBody.mk model docs) hra]
    rw [retryTrace_eq_flatMap]
    simp [embedLoop, hlen]
  · rw [retryTrace_countP_send, hra.length_eq]

/-- C5 witness: one 429 with header "1s" followed by a success gives the
trace send, sleep 1, send and returns success after two attempts. -/
theorem C5_witness :
    embed_texts ("m") [("a")]
        [.tooManyRequests (Headers.mk (some ("1s")) none) ("b"),
         .ok (.Ok (EmbeddingResponse.mk ("list") [EmbeddingData.mk ("embedding") [7] 0]
           ("m") ("u")))] =
      (retryTrace (RequestBody.mk ("m") [("a")]) [1],
       .success (List.zipWith (fun ed doc => Embedding.mk doc ed.embedding)
         [EmbeddingData.mk ("embedding") [7] 0] [("a")])) ∧
    (retryTrace (RequestBody.mk ("m") [("a")]) [1]).countP Event.isSend =
      [(Headers.mk (some ("1s")) none, ("b"))].length + 1 := by
  have h1s : parse_ratelimit_duration ("1s") = some (some 1) := by
    norm_num +decide [parse_ratelimit_duration, headerToStr?, scanLoop, applyUnit, addSecs,
      parseF64?, singleUnit, rustIsAlphabetic, from_secs_f64, durAdd, durationMax,
      digitsVal, round_ofNat, show ("1s").data = ['1', 's'] from rfl]
  exact C5_retry_until_success ("m") [("a")] [(Headers.mk (some ("1s")) none, ("b"))] [1]
    (EmbeddingResponse.mk ("list") [EmbeddingData.mk ("embedding") [7] 0] ("m") ("u"))
    (List.Forall₂.cons ⟨("1s"), rfl, h1s⟩ List.Forall₂.nil) rfl

/-- C6: a 429 from which no duration is obtainable from either header
terminates the run with a ProviderError carrying the response body text,
after exactly one send and without consuming any further scripted response —
no fixed or guessed delay is ever substituted. -/
theorem C6_no_hint_is_terminal (model : String) (docs : List String) (headers : Headers)
    (bodyText : String) (rest : List HttpResponse)
    (h : retry_after headers = some none) :
    embed_texts model docs (.tooManyRequests headers bodyText :: rest) =
      ([.send (RequestBody.mk model docs)],
       .failure (.ProviderError
         ("Rate limit hit, but no valid retry duration found in headers. Response: "
           ++ bodyText))) := by
  simp [embed_texts, embedLoop, h]

/-- C6 witness: both headers absent; even with a further scripted response
available, the run stops after the single send and surfaces the body text. -/
theorem C6_witness :
    embed_texts ("m") [("a")]
        [.tooManyRequests (Headers.mk none none) ("quota exceeded"),
         .ok (.Err (ApiErrorResponse.mk ("x")))] =
      ([.send (RequestBody.mk ("m") [("a")])],
       .failure (.ProviderError
         ("Rate limit hit, but no valid retry duration found in headers. Response: "
           ++ "quota exceeded"))) :=
  C6_no_hint_is_terminal ("m") [("a")] (Headers.mk none none) ("quota exceeded")
    [.ok (.Err (ApiErrorResponse.mk ("x")))] rfl

/-- C7: a 200 success whose record count differs from the input count fails
with a ResponseError — a constructor distinct from ProviderError — after one
send, returning no partial result and attempting no retry even when further
scripted responses are available. -/
theorem C7_shape_mismatch_terminal (model : String) (docs : List String)
    (rd : EmbeddingResponse) (rest : List HttpResponse)
    (h : rd.data.length ≠ docs.length) :
    embed_texts model docs (.ok (.Ok rd) :: rest) =
      ([.send (RequestBody.mk model docs)],
       .failure (.ResponseError ("Response data length does not match input length"))) ∧
    ∀ msg, EmbeddingError.ResponseError ("Response data length does not match input length") ≠
      EmbeddingError.ProviderError msg := by
  constructor
  · simp [embed_texts, embedLoop, h]
  · intro msg h2
    cases h2

/-- C7 witness: zero records for one document fails with the shape error
after a single send. -/
theorem C7_witness :
    embed_texts ("m") [("a")]
        [.ok (.Ok (EmbeddingResponse.mk ("list") [] ("m") ("u"))),
         .ok (.Err (ApiErrorResponse.mk ("x")))] =
      ([.send (RequestBody.mk ("m") [("a")])],
       .failure (.ResponseError ("Response data length does not match input length"))) :=
  (C7_shape_mismatch_terminal ("m") [("a")] (EmbeddingResponse.mk ("list") [] ("m") ("u"))
    [.ok (.Err (ApiErrorResponse.mk ("x")))] (by simp)).1

/-- C8: a 200 success whose record count equals the input count and whose
records are in submission order returns a sequence of the same length in
input order, each entry's document field identical to the corresponding
input string. -/
theorem C8_ordered_success_alignment (model : String) (docs : List String)
    (rd : EmbeddingResponse) (rest : List HttpResponse)
    (hlen : rd.data.length = docs.length)
    (horder : ∀ i (hi : i < rd.data.length), (rd.data.get ⟨i, hi⟩).index = i) :
    ∃ out, embed_texts model docs (.ok (.Ok rd) :: rest) =
        ([.send (RequestBody.mk model docs)], .success out) ∧
      out.length = docs.length ∧
      ∀ i, i < docs.length → (out[i]?).map Embedding.document = docs[i]? := by
  refine ⟨List.zipWith (fun ed doc => Embedding.mk doc ed.embedding) rd.data docs,
    ?_, ?_, ?_⟩
  · simp [embed_texts, embedLoop, hlen]
  · simp [List.length_zipWith, hlen]
  · intro i hi
    rw [List.getElem?_zipWith']
    rw [List.getElem?_eq_getElem (by omega : i < rd.data.length),
      List.getElem?_eq_getElem hi]
    simp

/-- C8 witness: two in-order records for two documents align by position. -/
theorem C8_witness :
    ∃ out, embed_texts ("m") [("a"), ("b")]
        [.ok (.Ok (EmbeddingResponse.mk ("list")
          [EmbeddingData.mk ("embedding") [7] 0, EmbeddingData.mk ("embedding") [8] 1]
          ("m") ("u")))] =
        ([.send (RequestBody.mk ("m") [("a"), ("b")])], .success out) ∧
      out.length = [("a"), ("b")].length ∧
      ∀ i, i < [("a"), ("b")].length →
        (out[i]?).map Embedding.document = [("a"), ("b")][i]? := by
  refine C8_ordered_success_alignment ("m") [("a"), ("b")]
    (EmbeddingResponse.mk ("list")
      [EmbeddingData.mk ("embedding") [7] 0, EmbeddingData.mk ("embedding") [8] 1]
      ("m") ("u")) [] rfl ?_
  intro i hi
  match i, hi with
  | 0, _ => rfl
  | 1, _ => rfl
